import Mathlib

/-!
Verification of the devdash repository: a shallow embedding of its
change-deduplication engine (`Checker` and its event handlers) and of its
line-oriented output parsers (`Flake8.iter_issues`, `MyPy.iter_issues`,
`Pytest._track_progress`, `Pytest._capture_failures`, `deansi`,
`_expect_line`, `_expect_empty`), together with theorems settling the
frozen claims about them.

Strings are modelled by Lean `String`; the Python string operations used
by the source (`split` with and without separator and maxsplit, `strip`,
`rstrip`, substring membership, `replace`, slicing, `int`) are embedded
as executable functions over the character list of the string, following
Python semantics for the exact call sites appearing in the source.
-/

namespace Devdash

/-! ## Python string-operation embedding -/

/-- Characters of a string after the Python `str.strip()` of the source
(whitespace removed from both ends). -/
def pyStripL (l : List Char) : List Char :=
  ((l.dropWhile Char.isWhitespace).reverse.dropWhile Char.isWhitespace).reverse

/-- Python `str.strip()`. -/
def pyStrip (s : String) : String :=
  String.mk (pyStripL s.data)

/-- Python `str.rstrip()`: whitespace removed from the right end only. -/
def pyRstrip (s : String) : String :=
  String.mk ((s.data.reverse.dropWhile Char.isWhitespace).reverse)

/-- Split a character list on every occurrence of a single separator
character, keeping empty fields, as Python `str.split(sep)` does for a
one-character separator. -/
def splitCharL (sep : Char) : List Char → List (List Char)
  | [] => [[]]
  | c :: rest =>
    match splitCharL sep rest with
    | [] => [[]]
    | g :: gs => if c = sep then [] :: g :: gs else (c :: g) :: gs

/-- Python `line.split(":", maxsplit=3)`: when the full split has more
than four fields, the fourth field keeps the remaining colons. -/
def pySplitColonMax3 (s : String) : List String :=
  let parts := (splitCharL ':' s.data).map String.mk
  if parts.length ≤ 4 then parts
  else parts.take 3 ++ [String.intercalate ":" (parts.drop 3)]

/-- One step of the fuel-driven multi-character split: `acc` holds the
characters of the current field in reverse order. -/
def splitOnGo (sep : List Char) : Nat → List Char → List Char → List (List Char)
  | 0, acc, rest => [acc.reverse ++ rest]
  | _ + 1, acc, [] => [acc.reverse]
  | fuel + 1, acc, c :: rest =>
    if sep.isPrefixOf (c :: rest) then
      acc.reverse :: splitOnGo sep fuel [] (List.drop sep.length (c :: rest))
    else
      splitOnGo sep fuel (c :: acc) rest

/-- Python `str.split(sep)` for a non-empty separator string: fields
between non-overlapping leftmost occurrences of `sep`. -/
def pySplitOn (sep s : String) : List String :=
  if sep.data.isEmpty then [s]
  else (splitOnGo sep.data (s.data.length + 1) [] s.data).map String.mk

/-- Whether `sub` occurs as a contiguous run inside `l`. -/
def containsL (sub : List Char) : List Char → Bool
  | [] => sub.isEmpty
  | c :: rest => sub.isPrefixOf (c :: rest) || containsL sub rest

/-- Python `sub in s` for strings: the empty string is contained in
every string. -/
def pyContains (sub s : String) : Bool :=
  containsL sub.data s.data

/-- Python `s.startswith(t)`. -/
def pyStartsWith (s t : String) : Bool :=
  t.data.isPrefixOf s.data

/-- Python `s.endswith(t)`. -/
def pyEndsWith (s t : String) : Bool :=
  t.data.isSuffixOf s.data

/-- Python `line.replace("\\", "/")` from the failure-boundary check:
a single-character replacement is a character map. -/
def pyReplaceBS (s : String) : String :=
  String.mk (s.data.map fun c => if c = '\\' then '/' else c)

/-- First whitespace-delimited token of a line, as produced by
`line.split()[0]` on a line holding at least one non-whitespace
character. -/
def pyFirstToken (s : String) : String :=
  String.mk ((s.data.dropWhile Char.isWhitespace).takeWhile fun c => !c.isWhitespace)

/-- Python `line[-5:-2]`: negative-index slicing with clamping at the
string ends. -/
def pySlice52 (s : String) : String :=
  String.mk ((s.data.take (s.data.length - 2)).drop (s.data.length - 5))

/-- Numeric value of a list of decimal digit characters. -/
def natOfDigits (ds : List Char) : Nat :=
  ds.foldl (fun a c => a * 10 + (c.toNat - 48)) 0

/-- Python `int(x)` on a string: surrounding whitespace tolerated, an
optional sign followed by at least one decimal digit; anything else is a
`ValueError`, modelled as `none`. -/
def pyInt? (s : String) : Option Int :=
  match pyStripL s.data with
  | '-' :: ds => if ds ≠ [] ∧ ds.all Char.isDigit then some (-(natOfDigits ds : Int)) else none
  | '+' :: ds => if ds ≠ [] ∧ ds.all Char.isDigit then some (natOfDigits ds : Int) else none
  | ds => if ds ≠ [] ∧ ds.all Char.isDigit then some (natOfDigits ds : Int) else none

/-! ## The `deansi` regular-expression substitution

`deansi(s)` is `re.sub("\x1b\\[.+?m", "", s)`: an escape character, an
opening bracket, then a lazy non-empty run of non-newline characters
ending at the first following `m`, all removed; scanning resumes after
the removed run. -/

/-- Find the end of an ANSI escape run: the characters after `[` must
contain, after at least one leading non-newline character, an `m` with
no newline before it; returns the characters after that `m`. -/
def ansiEndGo : List Char → Option (List Char)
  | [] => none
  | c :: rest => if c = 'm' then some rest else if c = '\n' then none else ansiEndGo rest

/-- The lazy `.+?m` tail match: the first character is consumed by `.+?`
(so it may itself be `m`), then the run ends at the next `m`. -/
def ansiEnd : List Char → Option (List Char)
  | [] => none
  | c :: rest => if c = '\n' then none else ansiEndGo rest

/-- Fuel-driven scan performing the substitution; fuel at least the list
length never runs out. -/
def deansiGo : Nat → List Char → List Char
  | 0, l => l
  | _ + 1, [] => []
  | fuel + 1, '\x1b' :: '[' :: rest2 =>
    match ansiEnd rest2 with
    | some tail => deansiGo fuel tail
    | none => '\x1b' :: deansiGo fuel ('[' :: rest2)
  | fuel + 1, c :: rest => c :: deansiGo fuel rest

/-- The source function `deansi`: strip ANSI color escape codes. -/
def deansi (s : String) : String :=
  String.mk (deansiGo s.data.length s.data)

/-! ## Fingerprint store and change deduplicator

`Checker.__init__` creates `self.hashes: Dict[Path, bytes] = {}`; the
four event handlers and `_run_update_on_distinct_hash` read and write
it.  Paths are strings, file contents and digests are byte lists; the
external `md5` digest is a parameter `hashF` of the event handlers, and
the filesystem visible to `Path.is_file` / `_hash` is a parameter `fs`
mapping a path to the content of the regular file it denotes, if any.
The number of `run_update` recheck firings is returned beside the
updated store. -/

abbrev FilePath := String

abbrev Content := List Nat

abbrev Digest := List Nat

/-- The reserved digest `b""` stored for missing and deleted files. -/
def emptyDigest : Digest := []

/-- The `self.hashes` dictionary: insertion-ordered association list,
updates overwrite in place. -/
abbrev Store := List (FilePath × Digest)

/-- Python `self.hashes.get(path)`. -/
def storeGet : Store → FilePath → Option Digest
  | [], _ => none
  | (q, d) :: rest, p => if q = p then some d else storeGet rest p

/-- Python `self.hashes[path] = h`: overwrite in place, append if new. -/
def storeSet : Store → FilePath → Digest → Store
  | [], p, h => [(p, h)]
  | (q, d) :: rest, p, h =>
    if q = p then (q, h) :: rest else (q, d) :: storeSet rest p h

/-- The filesystem as visible to the handlers: the content of the
regular file at a path, or `none` when the path does not denote a
regular file. -/
abbrev FileSys := FilePath → Option Content

/-- `Checker._run_update_on_distinct_hash`: if the digest differs from
the stored one (`None` for an unknown path compares distinct), store it
and fire `run_update` once; otherwise do nothing. -/
def runUpdateOnDistinctHash (st : Store) (p : FilePath) (h : Digest) : Store × Nat :=
  if storeGet st p = some h then (st, 0)
  else (storeSet st p h, 1)

/-- `Checker.on_created`: only when the path currently denotes a regular
file, defer to the deduplicated update with the content hash. -/
def onCreated (fs : FileSys) (hashF : Content → Digest) (st : Store) (p : FilePath) :
    Store × Nat :=
  match fs p with
  | some c => runUpdateOnDistinctHash st p (hashF c)
  | none => (st, 0)

/-- `Checker.on_deleted`: deduplicated update with the reserved empty
digest. -/
def onDeleted (st : Store) (p : FilePath) : Store × Nat :=
  runUpdateOnDistinctHash st p emptyDigest

/-- `Checker.on_moved`: the source path's fingerprint is set to the
empty digest directly, without the deduplicated-update path; then, when
the destination denotes a regular file, a deduplicated update runs for
it. -/
def onMoved (fs : FileSys) (hashF : Content → Digest) (st : Store) (src dst : FilePath) :
    Store × Nat :=
  match fs dst with
  | some c => runUpdateOnDistinctHash (storeSet st src emptyDigest) dst (hashF c)
  | none => (storeSet st src emptyDigest, 0)

/-- `Checker.on_modified`: identical body to `on_created`. -/
def onModified (fs : FileSys) (hashF : Content → Digest) (st : Store) (p : FilePath) :
    Store × Nat :=
  match fs p with
  | some c => runUpdateOnDistinctHash st p (hashF c)
  | none => (st, 0)

/-! ## Store lemmas -/

theorem storeGet_set_self (st : Store) (p : FilePath) (d : Digest) :
    storeGet (storeSet st p d) p = some d := by
  induction st with
  | nil => simp [storeGet, storeSet]
  | cons hd tl ih =>
    obtain ⟨q, e⟩ := hd
    by_cases h : q = p
    · simp [storeGet, storeSet, h]
    · simp [storeGet, storeSet, h, ih]

theorem storeGet_set_ne (st : Store) (p q : FilePath) (d : Digest) (h : q ≠ p) :
    storeGet (storeSet st p d) q = storeGet st q := by
  induction st with
  | nil =>
    simp only [storeSet, storeGet]
    rw [if_neg (fun hc => h hc.symm)]
  | cons hd tl ih =>
    obtain ⟨r, e⟩ := hd
    simp only [storeSet]
    by_cases hr : r = p
    · rw [if_pos hr]
      subst hr
      simp only [storeGet]
      rw [if_neg (fun hc => h hc.symm), if_neg (fun hc => h hc.symm)]
    · rw [if_neg hr]
      simp only [storeGet]
      by_cases hrq : r = q
      · rw [if_pos hrq, if_pos hrq]
      · rw [if_neg hrq, if_neg hrq]
        exact ih

/-! ## Claim theorems: change deduplicator -/

/-- Example filesystem for the move counterexample: only path `B`
denotes a regular file, with content `[5]`. -/
def fsMove : FileSys := fun p => if p = "B" then some ([5] : Content) else none

/-- Stand-in digest function for concrete runs: digests are non-empty,
as md5 digests are. -/
def hashDemo : Content → Digest := fun c => 0 :: c

/-- Store for the move counterexample: `A` fingerprinted `[9]`, `B`
fingerprinted `[7]`. -/
def stMove : Store := [("A", [9]), ("B", [7])]

/-- Claim C1 is false on the code: in a `Moved(A, B)` event where `B` is
a regular file whose content hash `[0, 5]` differs from `A`'s stored
fingerprint `[9]`, and where `A`'s stored fingerprint also differs from
the empty digest (so the claim demands the `A`-half fire a recheck, for
a total of two), the handler fires exactly one recheck: the `A`-half
writes the empty digest without ever firing. -/
theorem moved_a_half_never_fires_counterexample :
    fsMove "B" = some [5] ∧
    hashDemo [5] ≠ [9] ∧
    storeGet stMove "A" = some [9] ∧
    ([9] : Digest) ≠ emptyDigest ∧
    storeGet stMove "B" = some [7] ∧
    hashDemo [5] ≠ [7] ∧
    (onMoved fsMove hashDemo stMove "A" "B").2 = 1 ∧
    (onMoved fsMove hashDemo stMove "A" "B").2 ≠ 2 := by
  decide

/-- Claim C1 amended: `Moved(A, B)` with `B` a regular file of content
`c` (and `A ≠ B`) leaves `A` fingerprinted with the empty digest and `B`
fingerprinted with `hash(c)`; the only recheck that can fire is the
`B`-half's, which fires exactly when `hash(c)` differs from `B`'s
previously stored fingerprint — the `A`-half never fires, so at most one
recheck fires per move. -/
theorem moved_updates_and_fires (fs : FileSys) (hashF : Content → Digest)
    (st : Store) (A B : FilePath) (c : Content) (hAB : A ≠ B) (hB : fs B = some c) :
    storeGet (onMoved fs hashF st A B).1 A = some emptyDigest ∧
    storeGet (onMoved fs hashF st A B).1 B = some (hashF c) ∧
    (onMoved fs hashF st A B).2
      = (if storeGet st B = some (hashF c) then 0 else 1) ∧
    (onMoved fs hashF st A B).2 ≤ 1 := by
  have hgB : storeGet (storeSet st A emptyDigest) B = storeGet st B :=
    storeGet_set_ne st A B emptyDigest (fun h => hAB h.symm)
  by_cases heq : storeGet st B = some (hashF c)
  · have hrun : onMoved fs hashF st A B = (storeSet st A emptyDigest, 0) := by
      simp [onMoved, hB, runUpdateOnDistinctHash, hgB, heq]
    refine ⟨?_, ?_, ?_, ?_⟩
    · rw [hrun]; exact storeGet_set_self st A emptyDigest
    · rw [hrun]; simp [hgB, heq]
    · simp [hrun, heq]
    · simp [hrun]
  · have hrun : onMoved fs hashF st A B
        = (storeSet (storeSet st A emptyDigest) B (hashF c), 1) := by
      simp [onMoved, hB, runUpdateOnDistinctHash, hgB, heq]
    refine ⟨?_, ?_, ?_, ?_⟩
    · rw [hrun]
      rw [storeGet_set_ne _ B A (hashF c) hAB]
      exact storeGet_set_self st A emptyDigest
    · rw [hrun]; exact storeGet_set_self _ B (hashF c)
    · simp [hrun, heq]
    · simp [hrun]

/-- Concrete instance of the amended move claim. -/
theorem moved_updates_and_fires_witness :
    storeGet (onMoved fsMove hashDemo stMove "A" "B").1 "A" = some emptyDigest ∧
    storeGet (onMoved fsMove hashDemo stMove "A" "B").1 "B" = some (hashDemo [5]) ∧
    (onMoved fsMove hashDemo stMove "A" "B").2
      = (if storeGet stMove "B" = some (hashDemo [5]) then 0 else 1) ∧
    (onMoved fsMove hashDemo stMove "A" "B").2 ≤ 1 :=
  moved_updates_and_fires fsMove hashDemo stMove "A" "B" [5]
    (by decide) (by decide)

/-- Claim C4: a second `Modified` event for the same path with identical
content fires no recheck and leaves the store untouched, so two
consecutive identical modifications fire at most once; and in general a
deduplicated update whose digest equals the stored fingerprint fires
nothing and returns the store unchanged. -/
theorem modified_idempotent (fs : FileSys) (hashF : Content → Digest)
    (st : Store) (p : FilePath) (c : Content) (hfs : fs p = some c) :
    (onModified fs hashF (onModified fs hashF st p).1 p).2 = 0 ∧
    (onModified fs hashF (onModified fs hashF st p).1 p).1
      = (onModified fs hashF st p).1 ∧
    (onModified fs hashF st p).2
        + (onModified fs hashF (onModified fs hashF st p).1 p).2 ≤ 1 ∧
    (∀ (st' : Store) (q : FilePath) (h : Digest),
      storeGet st' q = some h → runUpdateOnDistinctHash st' q h = (st', 0)) := by
  have hgen : ∀ (st' : Store) (q : FilePath) (h : Digest),
      storeGet st' q = some h → runUpdateOnDistinctHash st' q h = (st', 0) := by
    intro st' q h hq
    simp [runUpdateOnDistinctHash, hq]
  have hafter : storeGet (runUpdateOnDistinctHash st p (hashF c)).1 p = some (hashF c) := by
    by_cases heq : storeGet st p = some (hashF c)
    · simp [runUpdateOnDistinctHash, heq]
    · simp [runUpdateOnDistinctHash, heq, storeGet_set_self]
  have hsecond : onModified fs hashF (onModified fs hashF st p).1 p
      = ((onModified fs hashF st p).1, 0) := by
    simp only [onModified, hfs]
    exact hgen _ p (hashF c) hafter
  refine ⟨by simp [hsecond], by simp [hsecond], ?_, hgen⟩
  have hfirst : (onModified fs hashF st p).2 ≤ 1 := by
    by_cases heq : storeGet st p = some (hashF c) <;>
      simp [onModified, hfs, runUpdateOnDistinctHash, heq]
  simp [hsecond]
  omega

/-- Concrete instance of the idempotence claim: two identical
modifications of `B` starting from an empty store. -/
theorem modified_idempotent_witness :
    (onModified fsMove hashDemo (onModified fsMove hashDemo [] "B").1 "B").2 = 0 ∧
    (onModified fsMove hashDemo (onModified fsMove hashDemo [] "B").1 "B").1
      = (onModified fsMove hashDemo [] "B").1 ∧
    (onModified fsMove hashDemo [] "B").2
        + (onModified fsMove hashDemo (onModified fsMove hashDemo [] "B").1 "B").2 ≤ 1 ∧
    (∀ (st' : Store) (q : FilePath) (h : Digest),
      storeGet st' q = some h → runUpdateOnDistinctHash st' q h = (st', 0)) :=
  modified_idempotent fsMove hashDemo [] "B" [5] (by decide)

/-- Claim C5: after `Deleted(P)` the stored fingerprint of `P` is the
reserved empty digest whatever was stored before, and a following
`Created(P)` with `P` a regular file of content `c` (whose digest, being
an md5 digest, is non-empty) fires exactly one recheck and stores
`hash(c)`. -/
theorem deleted_then_created (fs : FileSys) (hashF : Content → Digest)
    (st : Store) (p : FilePath) (c : Content)
    (hfs : fs p = some c) (hne : hashF c ≠ emptyDigest) :
    storeGet (onDeleted st p).1 p = some emptyDigest ∧
    (onCreated fs hashF (onDeleted st p).1 p).2 = 1 ∧
    storeGet (onCreated fs hashF (onDeleted st p).1 p).1 p = some (hashF c) := by
  have hdel : storeGet (onDeleted st p).1 p = some emptyDigest := by
    by_cases heq : storeGet st p = some emptyDigest
    · simp [onDeleted, runUpdateOnDistinctHash, heq]
    · simp [onDeleted, runUpdateOnDistinctHash, heq, storeGet_set_self]
  have hneq : ¬ storeGet (onDeleted st p).1 p = some (hashF c) := by
    rw [hdel]
    intro hcontra
    exact hne (Option.some.inj hcontra).symm
  refine ⟨hdel, ?_, ?_⟩
  · simp [onCreated, hfs, runUpdateOnDistinctHash, hneq]
  · simp [onCreated, hfs, runUpdateOnDistinctHash, hneq, storeGet_set_self]

/-- Concrete instance of the delete-then-create claim. -/
theorem deleted_then_created_witness :
    storeGet (onDeleted stMove "B").1 "B" = some emptyDigest ∧
    (onCreated fsMove hashDemo (onDeleted stMove "B").1 "B").2 = 1 ∧
    storeGet (onCreated fsMove hashDemo (onDeleted stMove "B").1 "B").1 "B"
      = some (hashDemo [5]) :=
  deleted_then_created fsMove hashDemo stMove "B" [5] (by decide) (by decide)

/-! ## Issue records and the Flake8 single-line grammar

`Issue = Tuple[str, str, str, List[str], str]` in the source: path,
line, column, message lines, raw fallback. -/

structure Issue where
  path : String
  lineno : String
  column : String
  messages : List String
  rawFallback : String
deriving DecidableEq, Repr

/-- Whether the structured side of an `Issue` carries anything. -/
def structuredPop (i : Issue) : Bool :=
  i.path != "" || i.lineno != "" || i.column != "" || !i.messages.isEmpty

/-- Whether the raw-fallback side of an `Issue` carries anything. -/
def rawPop (i : Issue) : Bool :=
  i.rawFallback != ""

/-- `Flake8.iter_issues`, body of the per-line loop: split the line into
at most four colon fields; on exactly four fields yield a structured
issue unless every field is empty (message compared after stripping); on
any other field count yield the stripped line as a raw fallback unless
it is empty. -/
def flake8LineIssue (line : String) : Option Issue :=
  match pySplitColonMax3 line with
  | [path, lineno, column, msg0] =>
    if path = "" ∧ lineno = "" ∧ column = "" ∧ pyStrip msg0 = "" then none
    else some ⟨path, lineno, column, [pyStrip msg0], ""⟩
  | _ =>
    if pyStrip line = "" then none
    else some ⟨"", "", "", [], pyStrip line⟩

/-- `Flake8.iter_issues`: the per-line results over `stdout.split("\n")`. -/
def flake8IterIssues (stdout : String) : List Issue :=
  ((splitCharL '\n' stdout.data).map String.mk).filterMap flake8LineIssue

/-! ## Helper lemmas for the single-line grammar -/

theorem pyStrip_eq_empty_ws (s : String) (h : pyStrip s = "") :
    ∀ c ∈ s.data, c.isWhitespace = true := by
  have hl : pyStripL s.data = [] := congrArg String.data h
  unfold pyStripL at hl
  rw [List.reverse_eq_nil_iff] at hl
  have h2 := List.dropWhile_eq_nil_iff.mp hl
  have h3 : ∀ c ∈ s.data.dropWhile Char.isWhitespace, c.isWhitespace = true := by
    intro c hc
    exact h2 c (List.mem_reverse.mpr hc)
  intro c hc
  rw [← List.takeWhile_append_dropWhile Char.isWhitespace s.data] at hc
  rcases List.mem_append.mp hc with h4 | h4
  · exact List.mem_takeWhile_imp h4
  · exact h3 c h4

theorem splitCharL_no_sep (sep : Char) (l : List Char) (h : ∀ c ∈ l, c ≠ sep) :
    splitCharL sep l = [l] := by
  induction l with
  | nil => rfl
  | cons c rest ih =>
    have hr := ih (fun x hx => h x (List.mem_cons_of_mem c hx))
    simp [splitCharL, hr, h c (List.mem_cons_self c rest)]

theorem blank_split (line : String) (h : pyStrip line = "") :
    pySplitColonMax3 line = [line] := by
  have hws := pyStrip_eq_empty_ws line h
  have hns : ∀ c ∈ line.data, c ≠ ':' := by
    intro c hc he
    have hws' := hws c hc
    rw [he] at hws'
    exact absurd hws' (by decide)
  have hsp := splitCharL_no_sep ':' line.data hns
  simp [pySplitColonMax3, hsp]

/-! ## Claim theorems: single-line grammar -/

/-- Claim C3 is false on the code: the line made of three colons is not
blank, yet the single-line grammar yields no Issue for it — the split
succeeds with four fields that are all empty, so the truthiness guard
drops the record. -/
theorem flake8_nonblank_no_issue_counterexample :
    pyStrip ":::" ≠ "" ∧ flake8LineIssue ":::" = none ∧ flake8IterIssues ":::" = [] := by
  decide

/-- Claim C3 amended: a blank line yields no Issue; any line yields at
most one Issue (the per-line decoder is an `Option`); every Issue
produced has exactly one of its two representations populated; and the
only non-blank lines yielding no Issue are those splitting into exactly
four colon fields with empty path, line and column and whitespace-only
message. -/
theorem flake8_line_shape (line : String) :
    (pyStrip line = "" → flake8LineIssue line = none) ∧
    (∀ i, flake8LineIssue line = some i → (structuredPop i != rawPop i) = true) ∧
    (flake8LineIssue line = none → pyStrip line ≠ "" →
      ∃ d, pySplitColonMax3 line = ["", "", "", d] ∧ pyStrip d = "") := by
  refine ⟨?_, ?_, ?_⟩
  · intro h0
    have hs := blank_split line h0
    simp [flake8LineIssue, hs, h0]
  · intro i hi
    unfold flake8LineIssue at hi
    split at hi
    · split at hi
      · exact absurd hi (by simp)
      · have hv := Option.some.inj hi
        subst hv
        simp [structuredPop, rawPop]
    · split at hi
      · exact absurd hi (by simp)
      · rename_i hcond
        have hv := Option.some.inj hi
        subst hv
        simp [structuredPop, rawPop, bne_iff_ne]
        exact hcond
  · intro hnone hne
    unfold flake8LineIssue at hnone
    split at hnone
    · split at hnone
      · rename_i heq hcond
        obtain ⟨h1, h2, h3, h4⟩ := hcond
        subst h1; subst h2; subst h3
        exact ⟨_, heq, h4⟩
      · exact absurd hnone (by simp)
    · split at hnone
      · rename_i hcond
        exact absurd hcond hne
      · exact absurd hnone (by simp)

/-- Concrete instance of the amended single-line claim: the canonical
linter line yields one structured Issue with exactly one representation
populated. -/
theorem flake8_line_shape_witness :
    (structuredPop ⟨"a.py", "3", "5", ["E302 expected 2 blank lines"], ""⟩
      != rawPop ⟨"a.py", "3", "5", ["E302 expected 2 blank lines"], ""⟩) = true :=
  (flake8_line_shape "a.py:3:5: E302 expected 2 blank lines").2.1
    ⟨"a.py", "3", "5", ["E302 expected 2 blank lines"], ""⟩ (by decide)

/-! ## The MyPy multi-line grammar

`MyPy.iter_issues` keeps an open diagnostic (`path`, `lineno`, `column`,
`lines_issue`) across lines; yields are accumulated in order.  Because
`head, tail = line.split("error:")` raises when the marker occurs more
than once, the run result is the list of issues yielded before the
exception paired with the pending exception, if any. -/

structure MypyState where
  path : String
  lineno : String
  column : String
  linesIssue : List String
deriving DecidableEq, Repr

/-- The state at the top of `MyPy.iter_issues`. -/
def mypyInit : MypyState := ⟨"", "", "", []⟩

/-- The tuple yielded for an open diagnostic. -/
def mkMypyIssue (st : MypyState) : Issue :=
  ⟨st.path, st.lineno, st.column, st.linesIssue, ""⟩

/-- `if path: yield (path, lineno, column, lines_issue, "")`. -/
def mypyFlush (st : MypyState) : List Issue :=
  if st.path ≠ "" then [mkMypyIssue st] else []

/-- Recover path, line and column from the text before the `error:`
marker: split on colons, pad to three fields, strip each. -/
def headFields (head : String) : String × String × String :=
  match (splitCharL ':' head.data).map String.mk with
  | [] => ("", "", "")
  | [a] => (pyStrip a, "", "")
  | [a, b] => (pyStrip a, pyStrip b, "")
  | a :: b :: c :: _ => (pyStrip a, pyStrip b, pyStrip c)

/-- The line loop of `MyPy.iter_issues` over the remaining lines. -/
def mypyRun : MypyState → List String → List Issue × Option String
  | st, [] => (mypyFlush st, none)
  | st, line :: rest =>
    if pyStartsWith line "Found " then mypyRun st rest
    else
      match pySplitOn "error:" line with
      | [_] =>
        if pyContains ": " line then
          mypyRun
            { st with
              linesIssue := st.linesIssue ++ [pyStrip ((pySplitOn ": " line).getLastD "")] }
            rest
        else
          let ys := mypyFlush st ++ (if line ≠ "" then [⟨"", "", "", [], line⟩] else [])
          let r := mypyRun { st with path := "" } rest
          (ys ++ r.1, r.2)
      | [head, tail] =>
        let ys := mypyFlush st
        let f := headFields head
        let r := mypyRun ⟨f.1, f.2.1, f.2.2, [pyStrip tail]⟩ rest
        (ys ++ r.1, r.2)
      | _ =>
        (mypyFlush st, some "ValueError: too many values to unpack")

/-- `MyPy.iter_issues` on a whole captured output: issues yielded in
order, and the exception that escaped the generator, if any. -/
def mypyIterIssues (stdout : String) : List Issue × Option String :=
  mypyRun mypyInit ((splitCharL '\n' stdout.data).map String.mk)

/-! ## Claim theorems: multi-line grammar -/

/-- Claim C6: the two input lines parse to exactly one Issue whose
messages are the error text followed by the continuation tail, the open
diagnostic being flushed at end of input; no exception escapes. -/
theorem mypy_multiline_example :
    mypyIterIssues "a.py:10: error: Incompatible type\n    note: expected int"
      = ([⟨"a.py", "10", "", ["Incompatible type", "expected int"], ""⟩], none) := by
  decide

/-- Claim C10: a non-blank line containing the marker twice makes the
two-element unpack of the split raise instead of yielding a structured
or raw-fallback Issue, so the multi-line grammar is not total over
arbitrary text lines. -/
theorem mypy_double_error_raises :
    pyStrip "a.py:1: error: bad error: here" ≠ "" ∧
    (mypyIterIssues "a.py:1: error: bad error: here").2.isSome = true ∧
    (mypyIterIssues "a.py:1: error: bad error: here").1 = [] := by
  decide

/-! ## The incremental test-run grammar

`Pytest._track_progress` (Phase 1) and `Pytest._capture_failures`
(Phase 2) consume the live stdout line stream, here a `List String`.
`_expect_line` / `_expect_empty` raise `ValueError` on an unexpected
line and `next` raises on a spent stream; both are modelled by
`Except.error`, and the sequential consume-or-raise flow by
`Except.bind`. -/

/-- `_expect_line`: pop a line, right-strip it, strip ANSI escapes, then
check the given start marker, end marker and contained text in that
order. -/
def expectLine : List String → String → String → String → Except String (List String)
  | [], _, _, _ => .error "unexpected end of stream"
  | l :: rest, pre, suf, sub =>
    if !(pyStartsWith (deansi (pyRstrip l)) pre) then
      .error ("line does not start with expected marker: " ++ deansi (pyRstrip l))
    else if !(pyEndsWith (deansi (pyRstrip l)) suf) then
      .error ("line does not end with expected marker: " ++ deansi (pyRstrip l))
    else if !(pyContains sub (deansi (pyRstrip l))) then
      .error ("line does not contain expected text: " ++ deansi (pyRstrip l))
    else .ok rest

/-- The combined check `_expect_line` performs on the popped line. -/
def lineOk (l pre suf sub : String) : Bool :=
  pyStartsWith (deansi (pyRstrip l)) pre && pyEndsWith (deansi (pyRstrip l)) suf
    && pyContains sub (deansi (pyRstrip l))

/-- `_expect_empty`: pop a line and require it whitespace-only; note the
popped line is only whitespace-stripped, never ANSI-stripped. -/
def expectEmpty : List String → Except String (List String)
  | [] => .error "unexpected end of stream"
  | l :: rest =>
    if pyStrip l = "" then .ok rest
    else .error "line is not empty as expected"

/-- Result of Phase 1: final progress value, whether the bar was flagged
as failing, the failing-test identifiers in discovery order, and the
stream lines not yet consumed. -/
structure ProgressResult where
  progress : Int
  danger : Bool
  fails : List String
  rest : List String
deriving DecidableEq, Repr

/-- The Phase-1 line loop: each line is whitespace-stripped then
ANSI-stripped; a blank result ends the phase; otherwise characters
`[-5:-2]` parse as the progress integer, and a line containing `FAILED`
flags the bar and records its first whitespace-delimited token. -/
def trackProgressLoop : List String → Int → Bool → List String → Except String ProgressResult
  | [], prog, dang, fails => .ok ⟨prog, dang, fails, []⟩
  | l :: rest, prog, dang, fails =>
    if deansi (pyStrip l) = "" then .ok ⟨prog, dang, fails, rest⟩
    else
      match pyInt? (pySlice52 (deansi (pyStrip l))) with
      | none => .error "invalid literal for int"
      | some v =>
        if pyContains "FAILED" (deansi (pyStrip l)) then
          trackProgressLoop rest v true (fails ++ [pyFirstToken (deansi (pyStrip l))])
        else
          trackProgressLoop rest v dang fails

/-- `Pytest._track_progress`: the fenced session banner, a `collecting`
line and a blank line in strict order, then the progress loop starting
from progress 0 with no failures. -/
def trackProgress (stdout : List String) : Except String ProgressResult :=
  Except.bind (expectLine stdout "====" "====" "test session starts") fun s1 =>
  Except.bind (expectLine s1 "collecting" "" "") fun s2 =>
  Except.bind (expectEmpty s2) fun s3 =>
  trackProgressLoop s3 0 false []

/-- The capture loop for one failing test inside
`Pytest._capture_failures`: every line is appended to the captured
output, and a line whose backslash-normalized text contains the test's
path component ends the loop after being appended. -/
def captureOne (pathTest : String) : List String → List String × List String
  | [] => ([], [])
  | l :: rest =>
    if pyContains pathTest (pyReplaceBS l) then ([l], rest)
    else ((l :: (captureOne pathTest rest).1), (captureOne pathTest rest).2)

/-- One failing test's report: its identifier and its captured output
lines. -/
structure FailureReport where
  test : String
  output : List String
deriving DecidableEq, Repr

/-- Per-test part of `Pytest._capture_failures`: for each recorded
failing test, a fenced header holding its bare name, a blank line, then
the capture loop. -/
def captureGo : List String → List String → Except String (List FailureReport × List String)
  | [], stream => .ok ([], stream)
  | test :: more, stream =>
    match pySplitOn "::" test with
    | [pathTest, nameTest] =>
      Except.bind (expectLine stream "____" "____" nameTest) fun s2 =>
      Except.bind (expectEmpty s2) fun s3 =>
      Except.bind (captureGo more (captureOne pathTest s3).2) fun rs =>
      .ok (⟨test, (captureOne pathTest s3).1⟩ :: rs.1, rs.2)
    | _ => .error "test identifier does not split into exactly two parts"

/-- `Pytest._capture_failures`: the fenced `FAILURES` banner, then the
per-test captures. -/
def captureFailures (stream : List String) (fails : List String) :
    Except String (List FailureReport × List String) :=
  Except.bind (expectLine stream "====" "====" "FAILURES") fun s1 =>
  captureGo fails s1

/-! ## Except and expectation lemmas -/

theorem except_bind_ok {α β : Type} (x : α) (f : α → Except String β) :
    Except.bind (Except.ok x) f = f x := rfl

theorem expectLine_ok_of (l : String) (rest : List String) (pre suf sub : String)
    (h : lineOk l pre suf sub = true) :
    expectLine (l :: rest) pre suf sub = .ok rest := by
  simp only [lineOk, Bool.and_eq_true] at h
  obtain ⟨⟨h1, h2⟩, h3⟩ := h
  simp [expectLine, h1, h2, h3]

theorem expectLine_err_of (l : String) (rest : List String) (pre suf sub : String)
    (h : ¬ lineOk l pre suf sub = true) :
    ∃ e, expectLine (l :: rest) pre suf sub = .error e := by
  by_cases h1 : pyStartsWith (deansi (pyRstrip l)) pre = true
  · by_cases h2 : pyEndsWith (deansi (pyRstrip l)) suf = true
    · by_cases h3 : pyContains sub (deansi (pyRstrip l)) = true
      · exact absurd (by simp [lineOk, h1, h2, h3]) h
      · exact ⟨"line does not contain expected text: " ++ deansi (pyRstrip l),
          by simp [expectLine, h1, h2, h3]⟩
    · exact ⟨"line does not end with expected marker: " ++ deansi (pyRstrip l),
        by simp [expectLine, h1, h2]⟩
  · exact ⟨"line does not start with expected marker: " ++ deansi (pyRstrip l),
      by simp [expectLine, h1]⟩

/-! ## Claim theorems: incremental test-run grammar -/

/-- Claim C7: after the exact banner, collecting and blank preamble and
the `"...... [ 50%]"` progress line, any final line ending in `[100%]`
(already trimmed and free of ANSI escapes) that contains the `FAILED`
marker and whose first whitespace-delimited token is
`tests/test_a.py::test_x` ends Phase 1 with progress 100 and failing
list exactly that one identifier. -/
theorem progress_reaches_100_with_failure (s l : String)
    (hend : l = s ++ "[100%]")
    (hclean : deansi (pyStrip l) = l)
    (hfail : pyContains "FAILED" l = true)
    (htok : pyFirstToken l = "tests/test_a.py::test_x") :
    trackProgress
      ["==== test session starts ====", "collecting tests", "", "...... [ 50%]", l]
      = .ok ⟨100, true, ["tests/test_a.py::test_x"], []⟩ := by
  have hne : l ≠ "" := by
    rw [hend]
    intro hc
    have hd := congrArg String.data hc
    rw [String.data_append] at hd
    have h6 : ("[100%]" : String).data = [] := (List.append_eq_nil.mp hd).2
    exact absurd h6 (by decide)
  have hslice : pySlice52 l = "100" := by
    have hd6 : ("[100%]" : String).data = ['[', '1', '0', '0', '%', ']'] := rfl
    unfold pySlice52
    rw [hend, String.data_append, hd6]
    have hL : (s.data ++ ['[', '1', '0', '0', '%', ']']).length = s.data.length + 6 := by
      simp
    rw [hL]
    have e1 : s.data.length + 6 - 2 = s.data.length + 4 := by omega
    have e2 : s.data.length + 6 - 5 = s.data.length + 1 := by omega
    rw [e1, e2]
    have htake : (s.data ++ ['[', '1', '0', '0', '%', ']']).take (s.data.length + 4)
        = s.data ++ ['[', '1', '0', '0'] := by
      rw [List.take_append]
      rfl
    have hdrop : (s.data ++ ['[', '1', '0', '0']).drop (s.data.length + 1)
        = ['1', '0', '0'] := by
      rw [List.drop_append]
      rfl
    rw [htake, hdrop]
  have h5 : trackProgressLoop [l] 50 false [] = .ok ⟨100, true, ["tests/test_a.py::test_x"], []⟩ := by
    unfold trackProgressLoop
    rw [hclean, if_neg hne, hslice]
    have hint : pyInt? "100" = some 100 := by decide
    rw [hint, hfail, htok]
    simp [trackProgressLoop]
  have h4 : trackProgressLoop ["...... [ 50%]", l] 0 false []
      = trackProgressLoop [l] 50 false [] := rfl
  have h1 : expectLine
      ["==== test session starts ====", "collecting tests", "", "...... [ 50%]", l]
      "====" "====" "test session starts"
      = .ok ["collecting tests", "", "...... [ 50%]", l] :=
    expectLine_ok_of _ _ _ _ _ (by decide)
  have h2 : expectLine ["collecting tests", "", "...... [ 50%]", l] "collecting" "" ""
      = .ok ["", "...... [ 50%]", l] :=
    expectLine_ok_of _ _ _ _ _ (by decide)
  have h3 : expectEmpty ["", "...... [ 50%]", l] = .ok ["...... [ 50%]", l] := rfl
  unfold trackProgress
  rw [h1, except_bind_ok, h2, except_bind_ok, h3, except_bind_ok, h4, h5]

/-- Concrete instance of the Phase-1 claim on the canonical failing
stream. -/
theorem progress_reaches_100_with_failure_witness :
    trackProgress
      ["==== test session starts ====", "collecting tests", "", "...... [ 50%]",
        "tests/test_a.py::test_x FAILED " ++ "[100%]"]
      = .ok ⟨100, true, ["tests/test_a.py::test_x"], []⟩ :=
  progress_reaches_100_with_failure "tests/test_a.py::test_x FAILED "
    ("tests/test_a.py::test_x FAILED " ++ "[100%]")
    rfl (by decide) (by decide) (by decide)

/-- Claim C8: whenever the first three stream lines deviate from the
expected preamble — fenced `test session starts` banner, `collecting`
line, blank line — Phase 1 raises a structural parse error instead of
yielding a result; in particular this covers a non-blank line after the
`collecting` line. -/
theorem preamble_deviation_errors (l1 l2 l3 : String) (rest : List String)
    (hdev : ¬(lineOk l1 "====" "====" "test session starts" = true ∧
              lineOk l2 "collecting" "" "" = true ∧ pyStrip l3 = "")) :
    ∃ e, trackProgress (l1 :: l2 :: l3 :: rest) = .error e := by
  by_cases h1 : lineOk l1 "====" "====" "test session starts" = true
  · by_cases h2 : lineOk l2 "collecting" "" "" = true
    · have h3 : pyStrip l3 ≠ "" := fun hc => hdev ⟨h1, h2, hc⟩
      refine ⟨"line is not empty as expected", ?_⟩
      unfold trackProgress
      rw [expectLine_ok_of l1 (l2 :: l3 :: rest) _ _ _ h1, except_bind_ok,
        expectLine_ok_of l2 (l3 :: rest) _ _ _ h2, except_bind_ok]
      simp [expectEmpty, h3, Except.bind]
    · obtain ⟨e, he⟩ :=
        expectLine_err_of l2 (l3 :: rest) "collecting" "" "" h2
      refine ⟨e, ?_⟩
      unfold trackProgress
      rw [expectLine_ok_of l1 (l2 :: l3 :: rest) _ _ _ h1, except_bind_ok, he]
      rfl
  · obtain ⟨e, he⟩ :=
      expectLine_err_of l1 (l2 :: l3 :: rest) "====" "====" "test session starts" h1
    refine ⟨e, ?_⟩
    unfold trackProgress
    rw [he]
    rfl

/-- Concrete instance of the preamble claim: a non-blank line where the
blank line was expected raises. -/
theorem preamble_deviation_errors_witness :
    ∃ e, trackProgress ["==== test session starts ====", "collecting tests", "x"]
      = .error e :=
  preamble_deviation_errors "==== test session starts ====" "collecting tests" "x" []
    (by decide)

/-- Claim C9 is false on the code: `_expect_empty` compares the raw
whitespace-stripped line, never stripping ANSI escapes, so a line made
only of color escape codes — blank once deansied — is rejected as
non-blank and Phase 1 raises on it. -/
theorem blank_check_not_deansi_counterexample :
    deansi "\x1b[32m\x1b[0m" = "" ∧
    pyStrip "\x1b[32m\x1b[0m" ≠ "" ∧
    (trackProgress ["==== test session starts ====", "collecting tests", "\x1b[32m\x1b[0m"]).isOk
      = false := by
  decide

/-- Claim C9 amended: ANSI stripping is applied before the fenced-banner
checks of `_expect_line` and before the blank, percentage and `FAILED`
checks of the Phase-1 loop, but not in `_expect_empty`'s blank-line
check nor in the Phase-2 failure-boundary check.  Concretely: a stream
whose banner and progress line carry color codes parses fine, while the
capture loop does not stop at a line that contains the test's path only
after ANSI stripping. -/
theorem ansi_strip_coverage :
    trackProgress
      ["\x1b[1m==== test session starts ====\x1b[0m", "collecting tests", "",
        "\x1b[31mF FAILED [100%]\x1b[0m"]
      = .ok ⟨100, true, ["F"], []⟩ ∧
    pyContains "a.py" (deansi "a.\x1b[0mpy") = true ∧
    captureOne "a.py" ["a.\x1b[0mpy", "xa.pyz"] = (["a.\x1b[0mpy", "xa.pyz"], []) :=
  ⟨rfl, rfl, rfl⟩

/-- Claim C2 is false on the code: the capture loop appends each line
before testing it, so the boundary line lands in the captured output;
and the boundary test looks for the test's path component, not its full
identifier, so capture stops at a line that contains the path but not
the full identifier. -/
theorem boundary_line_appended_counterexample :
    captureFailures
      ["==== FAILURES ====", "____ test_x ____", "", "note tests/test_a.py here", "more"]
      ["tests/test_a.py::test_x"]
      = .ok ([⟨"tests/test_a.py::test_x", ["note tests/test_a.py here"]⟩], ["more"]) ∧
    pyContains "tests/test_a.py::test_x" (pyReplaceBS "note tests/test_a.py here") = false :=
  ⟨rfl, rfl⟩

/-- Claim C2 amended: raw lines after the fenced header and blank line
are appended verbatim to the failure's captured output until a line
whose backslash-normalized text contains the test's path component (the
part before `::`) is seen; that boundary line is consumed and is itself
appended to the captured output, after which capture moves on. -/
theorem capture_until_path_seen (pathTest : String) (pre : List String) (b : String)
    (rest : List String)
    (hpre : ∀ x ∈ pre, pyContains pathTest (pyReplaceBS x) = false)
    (hb : pyContains pathTest (pyReplaceBS b) = true) :
    captureOne pathTest (pre ++ b :: rest) = (pre ++ [b], rest) := by
  induction pre with
  | nil => simp [captureOne, hb]
  | cons x xs ih =>
    have hx := hpre x (List.mem_cons_self x xs)
    have ih' := ih fun y hy => hpre y (List.mem_cons_of_mem x hy)
    simp [captureOne, hx, ih']

/-- Concrete instance of the amended capture claim. -/
theorem capture_until_path_seen_witness :
    captureOne "a.py" (["x"] ++ "za.pyz" :: ["r"]) = (["x"] ++ ["za.pyz"], ["r"]) :=
  capture_until_path_seen "a.py" ["x"] "za.pyz" ["r"] (by decide) (by decide)

end Devdash
